import Mathlib

set_option maxRecDepth 4000
set_option maxHeartbeats 1000000

/-
Verification of the CodeSense agent core.

The definitions below are a shallow embedding of the conversation data
model, history sanitizer, provider adapter, tool registry and agent loops
found in MultiProviderAgent.js and media/main.js of the repository.
-/

/-- Prefix test on character lists. -/
def charsPre : List Char → List Char → Bool
  | [], _ => true
  | _ :: _, [] => false
  | a :: as, b :: bs => a == b && charsPre as bs

/-- Infix test on character lists. -/
def charsInfix (pat : List Char) : List Char → Bool
  | [] => charsPre pat []
  | b :: bs => charsPre pat (b :: bs) || charsInfix pat bs

/-- Substring containment, modelling JavaScript String.prototype.includes. -/
def strContains (s pat : String) : Bool := charsInfix pat.toList s.toList

/-- Conversation roles used by the agents (Gemini-style history). -/
inductive Role
  | user
  | model
deriving DecidableEq, Repr

/-- Tool-call descriptor: tool name plus an argument mapping.  Every tool
    parameter declared in media/main.js has type STRING, so argument values
    are strings. -/
structure FunctionCall where
  name : String
  args : List (String × String)
deriving DecidableEq, Repr

/-- Structured results returned by the tool implementations in media/main.js:
    success objects, file contents, file listings and error objects. -/
inductive ToolResult
  | ok
  | okMsg (message : String)
  | contents (s : String)
  | files (l : List String)
  | err (error : String)
deriving DecidableEq, Repr

/-- Payload of a functionResponse part: both agent loops wrap the tool output
    as either a result object or an error object. -/
inductive Payload
  | result (r : ToolResult)
  | error (e : String)
deriving DecidableEq, Repr

/-- One part of a conversation turn: plain text, a tool call issued by the
    model, or a tool result fed back to the model. -/
inductive MsgPart
  | text (s : String)
  | functionCall (fc : FunctionCall)
  | functionResponse (name : String) (response : Payload)
deriving DecidableEq, Repr

/-- Truthiness of p.functionCall in the JavaScript source. -/
def MsgPart.isFunctionCall : MsgPart → Bool
  | .functionCall _ => true
  | _ => false

/-- Truthiness of p.functionResponse in the JavaScript source. -/
def MsgPart.isFunctionResponse : MsgPart → Bool
  | .functionResponse _ _ => true
  | _ => false

/-- A conversation turn: a role together with an ordered list of parts. -/
structure Message where
  role : Role
  parts : List MsgPart
deriving DecidableEq, Repr

/-- A model turn that contains at least one function call
    (the hasFunctionCall test of the sanitizer). -/
def isFCTurn (m : Message) : Bool :=
  m.role == Role.model && m.parts.any MsgPart.isFunctionCall

/-- A user turn that contains at least one function response
    (the hasValidResponse test of the sanitizer). -/
def isFRUserTurn (m : Message) : Bool :=
  m.role == Role.user && m.parts.any MsgPart.isFunctionResponse

/-- The scan loop of MultiProviderAgent._validateAndSanitizeHistory: walk the
    history in order, skip structurally invalid turns (empty parts), and skip
    a model tool-call turn whenever the immediately following original turn is
    not a user turn containing a function response. -/
def sanitizeScan : List Message → List Message
  | [] => []
  | [msg] =>
    if msg.parts.isEmpty then []
    else if isFCTurn msg then []
    else [msg]
  | msg :: next :: rest =>
    if msg.parts.isEmpty then sanitizeScan (next :: rest)
    else if isFCTurn msg then
      if isFRUserTurn next then msg :: sanitizeScan (next :: rest)
      else sanitizeScan (next :: rest)
    else msg :: sanitizeScan (next :: rest)

/-- MultiProviderAgent._validateAndSanitizeHistory: run the scan, pop a
    trailing model tool-call turn, and finally require the first retained
    turn to be a user turn — otherwise discard the whole history. -/
def validateAndSanitizeHistory (history : List Message) : List Message :=
  let scanned := sanitizeScan history
  let scanned :=
    match scanned.getLast? with
    | some lastMsg => if isFCTurn lastMsg then scanned.dropLast else scanned
    | none => scanned
  match scanned.head? with
  | some first => if first.role == Role.user then scanned else []
  | none => scanned

/-- Local well-formedness of a history: every turn has nonempty parts, every
    model tool-call turn is immediately followed by a user turn containing a
    function response, and no tool-call turn is last. -/
def goodHistory : List Message → Bool
  | [] => true
  | [m] => !m.parts.isEmpty && !isFCTurn m
  | m :: n :: rest =>
    !m.parts.isEmpty && (!isFCTurn m || isFRUserTurn n) && goodHistory (n :: rest)

theorem isFRUserTurn_not_empty {n : Message} (h : isFRUserTurn n = true) :
    n.parts.isEmpty = false := by
  simp only [isFRUserTurn, Bool.and_eq_true] at h
  cases hp : n.parts with
  | nil => rw [hp] at h; simp at h
  | cons a l => simp

theorem isFRUserTurn_not_fc {n : Message} (h : isFRUserTurn n = true) :
    isFCTurn n = false := by
  simp only [isFRUserTurn, Bool.and_eq_true, beq_iff_eq] at h
  simp [isFCTurn, h.1]

theorem isFCTurn_not_empty {m : Message} (h : isFCTurn m = true) :
    m.parts.isEmpty = false := by
  simp only [isFCTurn, Bool.and_eq_true] at h
  cases hp : m.parts with
  | nil => rw [hp] at h; simp at h
  | cons a l => simp

theorem sanitizeScan_cons_keep (n : Message) (rest : List Message)
    (h1 : n.parts.isEmpty = false) (h2 : isFCTurn n = false) :
    sanitizeScan (n :: rest) = n :: sanitizeScan rest := by
  cases rest with
  | nil => simp [sanitizeScan, h1, h2]
  | cons b l => simp [sanitizeScan, h1, h2]

theorem goodHistory_cons {m : Message} {l : List Message}
    (h1 : m.parts.isEmpty = false) (h2 : isFCTurn m = false)
    (hg : goodHistory l = true) : goodHistory (m :: l) = true := by
  cases l with
  | nil => simp [goodHistory, h1, h2]
  | cons n k =>
    simp only [goodHistory, h1, h2, Bool.not_false, Bool.true_and] at hg ⊢
    simp [hg]

theorem goodHistory_cons_fc {m n : Message} {l : List Message}
    (h1 : isFCTurn m = true) (h2 : isFRUserTurn n = true)
    (hg : goodHistory (n :: l) = true) : goodHistory (m :: n :: l) = true := by
  simp only [goodHistory, isFCTurn_not_empty h1, h2, Bool.not_false, Bool.true_and,
    Bool.or_true, Bool.and_eq_true] at hg ⊢
  exact hg

/-- The scan always produces a locally well-formed history. -/
theorem goodHistory_sanitizeScan : ∀ h : List Message, goodHistory (sanitizeScan h) = true
  | [] => by simp [sanitizeScan, goodHistory]
  | [msg] => by
    by_cases h1 : msg.parts.isEmpty = true
    · simp [sanitizeScan, h1, goodHistory]
    · replace h1 : msg.parts.isEmpty = false := by simpa using h1
      by_cases h2 : isFCTurn msg = true
      · simp [sanitizeScan, h1, h2, goodHistory]
      · replace h2 : isFCTurn msg = false := by simpa using h2
        simp [sanitizeScan, h1, h2, goodHistory]
  | msg :: next :: rest => by
    have ih := goodHistory_sanitizeScan (next :: rest)
    by_cases h1 : msg.parts.isEmpty = true
    · simpa [sanitizeScan, h1] using ih
    · replace h1 : msg.parts.isEmpty = false := by simpa using h1
      by_cases h2 : isFCTurn msg = true
      · by_cases h3 : isFRUserTurn next = true
        · have hk := sanitizeScan_cons_keep next rest
            (isFRUserTurn_not_empty h3) (isFRUserTurn_not_fc h3)
          have hstep : sanitizeScan (msg :: next :: rest)
              = msg :: sanitizeScan (next :: rest) := by
            simp [sanitizeScan, h1, h2, h3]
          rw [hstep, hk]
          rw [hk] at ih
          exact goodHistory_cons_fc h2 h3 ih
        · replace h3 : isFRUserTurn next = false := by simpa using h3
          have hstep : sanitizeScan (msg :: next :: rest)
              = sanitizeScan (next :: rest) := by
            simp [sanitizeScan, h1, h2, h3]
          rw [hstep]; exact ih
      · replace h2 : isFCTurn msg = false := by simpa using h2
        have hstep : sanitizeScan (msg :: next :: rest)
            = msg :: sanitizeScan (next :: rest) := by
          simp [sanitizeScan, h1, h2]
        rw [hstep]
        exact goodHistory_cons h1 h2 ih

/-- On locally well-formed histories the scan is the identity. -/
theorem sanitizeScan_of_good : ∀ {h : List Message}, goodHistory h = true → sanitizeScan h = h
  | [], _ => rfl
  | [m], hg => by
    simp only [goodHistory, Bool.and_eq_true, Bool.not_eq_true'] at hg
    simp [sanitizeScan, hg.1, hg.2]
  | m :: n :: rest, hg => by
    simp only [goodHistory, Bool.and_eq_true, Bool.not_eq_true', Bool.or_eq_true] at hg
    obtain ⟨⟨h1, h2⟩, h3⟩ := hg
    have ih := sanitizeScan_of_good (h := n :: rest) h3
    by_cases hfc : isFCTurn m = true
    · rcases h2 with h2 | h2
      · rw [hfc] at h2; cases h2
      · have hstep : sanitizeScan (m :: n :: rest)
            = m :: sanitizeScan (n :: rest) := by
          simp [sanitizeScan, h1, hfc, h2]
        rw [hstep, ih]
    · replace hfc : isFCTurn m = false := by simpa using hfc
      have hstep : sanitizeScan (m :: n :: rest)
          = m :: sanitizeScan (n :: rest) := by
        simp [sanitizeScan, h1, hfc]
      rw [hstep, ih]

/-- In a locally well-formed history the last turn is never a tool-call turn. -/
theorem goodHistory_getLast : ∀ {h : List Message}, goodHistory h = true →
    ∀ m, h.getLast? = some m → isFCTurn m = false
  | [], _, m, hm => by simp at hm
  | [a], hg, m, hm => by
    simp only [goodHistory, Bool.and_eq_true, Bool.not_eq_true'] at hg
    simp only [List.getLast?_singleton, Option.some.injEq] at hm
    rw [← hm]
    exact hg.2
  | a :: b :: rest, hg, m, hm => by
    simp only [goodHistory, Bool.and_eq_true] at hg
    apply goodHistory_getLast (h := b :: rest) hg.2 m
    rw [← hm]
    exact List.getLast?_cons_cons.symm

/-- After the scan the trailing-pop branch of the sanitizer never fires and
    the final result is the scan output guarded by the first-turn check. -/
theorem validateAndSanitizeHistory_eq (h : List Message) :
    validateAndSanitizeHistory h =
      (match (sanitizeScan h).head? with
       | some first => if first.role == Role.user then sanitizeScan h else []
       | none => sanitizeScan h) := by
  unfold validateAndSanitizeHistory
  have hg := goodHistory_sanitizeScan h
  cases hl : (sanitizeScan h).getLast? with
  | none => simp [hl]
  | some lastMsg =>
    have hfc := goodHistory_getLast hg lastMsg hl
    simp [hl, hfc]

/-- Whether a history is empty or begins with a user turn. -/
def headIsUser : List Message → Bool
  | [] => true
  | m :: _ => m.role == Role.user

/-- The sanitizer equals the scan output guarded by the first-turn check. -/
theorem validateAndSanitizeHistory_eq2 (h : List Message) :
    validateAndSanitizeHistory h
      = if headIsUser (sanitizeScan h) then sanitizeScan h else [] := by
  rw [validateAndSanitizeHistory_eq h]
  cases hs : sanitizeScan h with
  | nil => simp [headIsUser]
  | cons a l => simp [headIsUser, List.head?_cons]

theorem validate_head_user (h : List Message) :
    validateAndSanitizeHistory h = []
      ∨ (validateAndSanitizeHistory h).head?.map Message.role = some Role.user := by
  rw [validateAndSanitizeHistory_eq2 h]
  by_cases hu : headIsUser (sanitizeScan h) = true
  · rw [if_pos hu]
    cases hs : sanitizeScan h with
    | nil => left; rfl
    | cons a l =>
      right
      rw [hs] at hu
      simp only [headIsUser] at hu
      simp only [List.head?_cons, Option.map_some, Option.some.injEq]
      simpa using hu
  · left; rw [if_neg hu]

theorem validate_good (h : List Message) :
    goodHistory (validateAndSanitizeHistory h) = true := by
  rw [validateAndSanitizeHistory_eq2 h]
  by_cases hu : headIsUser (sanitizeScan h) = true
  · rw [if_pos hu]; exact goodHistory_sanitizeScan h
  · rw [if_neg hu]; rfl

/-- Claim C2: the history sanitizer is idempotent — applying
    validateAndSanitizeHistory to its own output returns that output
    unchanged, for every input history. -/
theorem sanitizer_idempotent (h : List Message) :
    validateAndSanitizeHistory (validateAndSanitizeHistory h)
      = validateAndSanitizeHistory h := by
  have hg := goodHistory_sanitizeScan h
  rw [validateAndSanitizeHistory_eq2 h]
  by_cases hu : headIsUser (sanitizeScan h) = true
  · rw [if_pos hu]
    rw [validateAndSanitizeHistory_eq2 (sanitizeScan h), sanitizeScan_of_good hg,
      if_pos hu]
  · rw [if_neg hu]
    rfl

/-- Names of the tool calls in a list of parts, in order. -/
def callNames (parts : List MsgPart) : List String :=
  parts.filterMap fun p => match p with
    | .functionCall fc => some fc.name
    | _ => none

/-- Names of the tool results in a list of parts, in order. -/
def resultNames (parts : List MsgPart) : List String :=
  parts.filterMap fun p => match p with
    | .functionResponse n _ => some n
    | _ => none

/-- Pairwise part of the Conversation Turn invariant, following the wording of
    the spec (section 3): a model turn containing a tool call must be followed
    immediately by a user turn whose parts are exclusively tool results
    correlated 1:1, in the same order, with that turn's calls. -/
def specTurnPairs : List Message → Bool
  | [] => true
  | [m] => !isFCTurn m
  | m :: n :: rest =>
    (if isFCTurn m then
      n.role == Role.user && n.parts.all MsgPart.isFunctionResponse &&
        (resultNames n.parts == callNames m.parts)
     else true) && specTurnPairs (n :: rest)

/-- Full Conversation Turn invariant, following the wording of the spec
    (section 3): the history is empty or begins with a user turn, and the
    pairwise tool-call/tool-result invariant holds throughout. -/
def specTurnInvariants (h : List Message) : Bool :=
  (match h.head? with
   | some first => first.role == Role.user
   | none => true) && specTurnPairs h

/-- Sanitizer input whose output violates the full Conversation Turn
    invariant: the user turn answering the call mixes a text part with a
    tool-result part whose name does not match the call. -/
def cexHistoryC3 : List Message :=
  [⟨Role.user, [MsgPart.text "hi"]⟩,
   ⟨Role.model, [MsgPart.functionCall ⟨"readFile", [("file_path", "a.js")]⟩]⟩,
   ⟨Role.user, [MsgPart.text "note",
                MsgPart.functionResponse "writeFile" (Payload.error "boom")]⟩]

/-- Claim C3 (counterexample): the sanitizer keeps a tool-call turn whenever
    the next user turn contains at least one tool-result part, so its output
    can violate the exclusivity and 1:1 correlation required by the spec's
    Conversation Turn invariant. -/
theorem sanitizer_specInvariant_cex :
    specTurnInvariants (validateAndSanitizeHistory cexHistoryC3) = false := by
  decide

/-- Claim C3 (amended): for every input history the sanitizer's output is
    empty or begins with a user turn, every retained turn has nonempty parts,
    every model turn containing a tool call is immediately followed by a user
    turn containing at least one tool-result part, and no tool-call turn is
    last.  Exclusivity of tool-result parts and 1:1 order correlation are not
    guaranteed. -/
theorem sanitizer_output_invariants (h : List Message) :
    (validateAndSanitizeHistory h = []
      ∨ (validateAndSanitizeHistory h).head?.map Message.role = some Role.user)
    ∧ goodHistory (validateAndSanitizeHistory h) = true :=
  ⟨validate_head_user h, validate_good h⟩

/-- History whose first turn is a model tool-call turn with no answer: the
    scan drops it and keeps the following user turn. -/
def cexHistoryC7 : List Message :=
  [⟨Role.model, [MsgPart.functionCall ⟨"readFile", [("file_path", "a.js")]⟩]⟩,
   ⟨Role.user, [MsgPart.text "hello"]⟩]

/-- Claim C7 (counterexample): a history whose first turn is not a user turn
    for which the sanitizer returns a nonempty sequence — the leading orphaned
    tool-call turn is dropped during the scan, so the first-turn check sees
    the surviving user turn and keeps it. -/
theorem sanitizer_nonUserStart_cex :
    cexHistoryC7.head?.map Message.role = some Role.model
      ∧ validateAndSanitizeHistory cexHistoryC7
          = [⟨Role.user, [MsgPart.text "hello"]⟩] := by
  exact ⟨rfl, by decide⟩

/-- Claim C7 (amended): for every history whose first turn is not a user turn,
    the sanitizer returns the empty sequence or a sequence whose first turn is
    a user turn (the offending prefix having been dropped as invalid or
    orphaned). -/
theorem sanitizer_nonUserStart_amended (h : List Message)
    (_hne : h.head?.map Message.role ≠ some Role.user) :
    validateAndSanitizeHistory h = []
      ∨ (validateAndSanitizeHistory h).head?.map Message.role = some Role.user :=
  validate_head_user h

/-- Witness for the amended C7 theorem at a concrete non-user-first history. -/
theorem sanitizer_nonUserStart_amended_witness :
    validateAndSanitizeHistory cexHistoryC7 = []
      ∨ (validateAndSanitizeHistory cexHistoryC7).head?.map Message.role
          = some Role.user :=
  sanitizer_nonUserStart_amended cexHistoryC7 (by decide)

/-- JSON string escaping for quotes and backslashes, used by the modelled
    JSON.stringify. -/
def jsonEscape (s : String) : String :=
  String.join (s.toList.map fun c =>
    if c = '"' ∨ c = '\\' then String.singleton '\\' ++ String.singleton c
    else String.singleton c)

/-- A JSON string literal. -/
def jsonString (s : String) : String := "\"" ++ jsonEscape s ++ "\""

/-- JSON.stringify of a flat string-valued argument mapping. -/
def jsonStringifyArgs (args : List (String × String)) : String :=
  "\x7b" ++ String.intercalate ","
    (args.map fun kv => jsonString kv.1 ++ ":" ++ jsonString kv.2) ++ "\x7d"

/-- JSON.stringify of a tool result object. -/
def jsonStringifyResult : ToolResult → String
  | .ok => "\x7b\"success\":true\x7d"
  | .okMsg m => "\x7b\"success\":true,\"message\":" ++ jsonString m ++ "\x7d"
  | .contents s => "\x7b\"contents\":" ++ jsonString s ++ "\x7d"
  | .files l =>
    "\x7b\"files\":[" ++ String.intercalate "," (l.map jsonString) ++ "]\x7d"
  | .err e => "\x7b\"success\":false,\"error\":" ++ jsonString e ++ "\x7d"

/-- JSON.stringify of a function-response payload. -/
def jsonStringifyPayload : Payload → String
  | .result r => "\x7b\"result\":" ++ jsonStringifyResult r ++ "\x7d"
  | .error e => "\x7b\"error\":" ++ jsonString e ++ "\x7d"

/-- JSON.stringify of one history part. -/
def jsonStringifyPart : MsgPart → String
  | .text s => "\x7b\"text\":" ++ jsonString s ++ "\x7d"
  | .functionCall fc =>
    "\x7b\"functionCall\":\x7b\"name\":" ++ jsonString fc.name
      ++ ",\"args\":" ++ jsonStringifyArgs fc.args ++ "\x7d\x7d"
  | .functionResponse n resp =>
    "\x7b\"functionResponse\":\x7b\"name\":" ++ jsonString n
      ++ ",\"response\":" ++ jsonStringifyPayload resp ++ "\x7d\x7d"

/-- One entry of an OpenAI-style tool_calls array. -/
structure OAIToolCall where
  id : String
  name : String
  arguments : String
deriving DecidableEq, Repr

/-- One OpenAI-style wire message produced by the converter: a user message,
    an assistant text message, or an assistant message carrying tool calls. -/
inductive OAIMessage
  | user (content : String)
  | assistantText (content : String)
  | assistantToolCalls (tool_calls : List OAIToolCall)
deriving DecidableEq, Repr

/-- The p.text-or-JSON.stringify(p) conversion used for user parts: an empty
    text string is falsy in JavaScript, so it also falls back to stringify. -/
def partToUserText (p : MsgPart) : String :=
  match p with
  | .text s => if s = "" then jsonStringifyPart p else s
  | _ => jsonStringifyPart p

/-- The p.text-or-empty conversion used for model text parts. -/
def partToModelText : MsgPart → String
  | .text s => s
  | _ => ""

/-- Conversion of a single turn, as performed per iteration by
    MultiProviderAgent._convertToOpenAIMessages.  The tool-call branch fires
    only on the first part and emits a single tool_calls entry whose id is
    derived from Date.now(), modelled by the parameter now. -/
def convertTurn (now : Nat) (content : Message) : OAIMessage :=
  match content.role with
  | .user =>
    OAIMessage.user (String.intercalate "\n" (content.parts.map partToUserText))
  | .model =>
    match content.parts.head? with
    | some (.functionCall fc) =>
      OAIMessage.assistantToolCalls
        [⟨"call_" ++ toString now, fc.name, jsonStringifyArgs fc.args⟩]
    | _ =>
      OAIMessage.assistantText
        (String.intercalate "\n" (content.parts.map partToModelText))

/-- MultiProviderAgent._convertToOpenAIMessages: push one wire message per
    history turn, in order. -/
def convertToOpenAIMessages (now : Nat) : List Message → List OAIMessage
  | [] => []
  | content :: rest => convertTurn now content :: convertToOpenAIMessages now rest

/-- Number of tool_calls entries carried by a wire message. -/
def oaiToolCallCount : OAIMessage → Nat
  | .assistantToolCalls l => l.length
  | _ => 0

/-- A model turn carrying two tool calls in its parts. -/
def cexTurnC8 : Message :=
  ⟨Role.model,
   [MsgPart.functionCall ⟨"writeFile", [("file_path", "a.txt"), ("contents", "x")]⟩,
    MsgPart.functionCall ⟨"deleteFile", [("file_path", "b.txt")]⟩]⟩

/-- Claim C8 (counterexample): a model turn containing two tool-call parts is
    converted into an assistant message carrying a single tool_calls entry —
    only the first part is inspected, so the second call is dropped and the
    translation is not lossless. -/
theorem openai_multiCall_lossy_cex :
    (cexTurnC8.parts.countP MsgPart.isFunctionCall = 2)
      ∧ (convertToOpenAIMessages 0 [cexTurnC8]).map oaiToolCallCount = [1] := by
  exact ⟨by decide, by decide⟩

/-- Claim C8 (amended): the converter emits exactly one wire message per
    history turn, in order; a model turn whose first part is a tool call is
    converted into one assistant message carrying exactly one tool_calls
    entry that preserves the first call's name and JSON-stringified
    arguments; tool calls after the first are dropped; user turns become
    user messages and other model turns become assistant text messages. -/
theorem openai_conversion_amended (now : Nat) (history : List Message) :
    (convertToOpenAIMessages now history).length = history.length
    ∧ (∀ i, (hi : i < history.length) →
        (convertToOpenAIMessages now history)[i]? = some (convertTurn now history[i]))
    ∧ (∀ fc ps, convertTurn now ⟨Role.model, MsgPart.functionCall fc :: ps⟩
        = OAIMessage.assistantToolCalls
            [⟨"call_" ++ toString now, fc.name, jsonStringifyArgs fc.args⟩]) := by
  refine ⟨?_, ?_, ?_⟩
  · induction history with
    | nil => rfl
    | cons a l ih => simp [convertToOpenAIMessages, ih]
  · induction history with
    | nil => intro i hi; cases hi
    | cons a l ih =>
      intro i hi
      cases i with
      | zero =>
        simp [convertToOpenAIMessages, List.getElem?_cons_zero, List.getElem_cons_zero]
      | succ j =>
        simp only [convertToOpenAIMessages, List.getElem?_cons_succ, List.getElem_cons_succ]
        exact ih j (by simpa using hi)
  · intro fc ps
    rfl

/-- Witness for the amended C8 theorem at a concrete two-call history. -/
theorem openai_conversion_amended_witness :
    (convertToOpenAIMessages 7 [cexTurnC8])[0]? = some (convertTurn 7 cexTurnC8) :=
  (openai_conversion_amended 7 [cexTurnC8]).2.1 0 (by decide)

/-- Flat file-system model: an association list from path to contents. -/
abbrev FS := List (String × String)

/-- Contents stored at a path, if any. -/
def fsLookup (fs : FS) (p : String) : Option String := fs.lookup p

/-- Removal of a path from the file map. -/
def fsErase : FS → String → FS
  | [], _ => []
  | kv :: rest, p =>
    if kv.1 = p then fsErase rest p else kv :: fsErase rest p

/-- Overwrite of a path with new contents. -/
def fsInsert (fs : FS) (p c : String) : FS := (p, c) :: fsErase fs p

theorem fsLookup_fsErase (fs : FS) (p : String) : fsLookup (fsErase fs p) p = none := by
  induction fs with
  | nil => rfl
  | cons kv rest ih =>
    rcases kv with ⟨k, v⟩
    by_cases h : k = p
    · simp only [fsErase]
      rw [if_pos h]
      exact ih
    · simp only [fsErase]
      rw [if_neg h]
      have hne : (p == k) = false := by
        simp [Ne.symm h]
      simp only [fsLookup, List.lookup, hne]
      exact ih

/-- Argument lookup, modelling JavaScript destructuring of the argument
    object: a missing key yields undefined (none). -/
def getArg (args : List (String × String)) (key : String) : Option String :=
  args.lookup key

/-- File extensions accepted by listDirectory in media/main.js. -/
def allowedExtensions : List String :=
  [".js", ".jsx", ".ts", ".tsx", ".html", ".css", ".json", ".md"]

/-- Path-substring skip list used by listDirectory. -/
def skippedSubtrees : List String := ["node_modules", "dist", "build", ".git"]

/-- Extension of a path, as returned by path.extname: the suffix of the
    basename starting at its last dot. -/
def pathExt (p : String) : String :=
  let revBase := p.toList.reverse.takeWhile fun c => c ≠ '/'
  if revBase.contains '.' then
    String.mk (((revBase.takeWhile fun c => c ≠ '.').reverse).cons '.').reverse.reverse
  else ""

/-- listDirectory from media/main.js over the flat file-system model: the
    recursive directory walk becomes a filter over all stored paths — files
    under the given directory (prefix), with an allow-listed extension, whose
    full path does not contain a skipped-subtree substring.  A scan error
    (missing directory argument) yields an empty file list, matching the
    catch-and-continue in scanDir. -/
def listDirectory (fs : FS) (directory : String) : ToolResult :=
  ToolResult.files ((fs.map fun kv => kv.1).filter fun p =>
    charsPre directory.toList p.toList
      && !(skippedSubtrees.any fun b => strContains p b)
      && allowedExtensions.contains (pathExt p))

/-- readFile from media/main.js: file contents, or an error object built from
    the caught exception message (abbreviated here). -/
def readFile (fs : FS) (file_path : Option String) : ToolResult :=
  match file_path with
  | some p =>
    match fsLookup fs p with
    | some c => ToolResult.contents c
    | none => ToolResult.err "Failed to read file: ENOENT"
  | none => ToolResult.err "Failed to read file: invalid path"

/-- writeFile from media/main.js: parent-directory creation is implicit in
    the flat model, the file is overwritten and success is returned; a
    missing argument makes the underlying call throw, which the catch turns
    into an error object.  The diff side channel does not affect the file
    system. -/
def writeFile (fs : FS) (file_path contents : Option String) : FS × ToolResult :=
  match file_path, contents with
  | some p, some c => (fsInsert fs p c, ToolResult.ok)
  | _, _ => (fs, ToolResult.err "invalid arguments")

/-- deleteFile from media/main.js: unlink the file when it exists, otherwise
    report File not found; existsSync on a missing argument returns false, so
    that case also reports File not found.  The structured result is always
    returned, never thrown. -/
def deleteFile (fs : FS) (file_path : Option String) : FS × ToolResult :=
  match file_path with
  | some p =>
    if (fsLookup fs p).isSome then (fsErase fs p, ToolResult.ok)
    else (fs, ToolResult.err "File not found")
  | none => (fs, ToolResult.err "File not found")

/-- createDirectory from media/main.js: recursive mkdir, success whether or
    not the directory already exists; directories are not tracked by the flat
    file map, so there is no file-system change.  A missing argument makes
    mkdirSync throw, caught into an error object. -/
def createDirectory (fs : FS) (directory_path : Option String) : FS × ToolResult :=
  match directory_path with
  | some _ => (fs, ToolResult.ok)
  | none => (fs, ToolResult.err "invalid arguments")

/-- The toolFunctions map of media/main.js over the flat file-system model.
    runTerminalCommand runs an external subprocess, supplied here as the
    capability execCmd; an unknown name would make the JavaScript dispatch
    throw a TypeError, modelled as an error result. -/
def toolFunctionsMap (execCmd : String → ToolResult) (name : String)
    (args : List (String × String)) (fs : FS) : FS × ToolResult :=
  if name = "listDirectory" then
    (fs, match getArg args "directory" with
         | some d => listDirectory fs d
         | none => ToolResult.files [])
  else if name = "readFile" then (fs, readFile fs (getArg args "file_path"))
  else if name = "writeFile" then
    writeFile fs (getArg args "file_path") (getArg args "contents")
  else if name = "deleteFile" then deleteFile fs (getArg args "file_path")
  else if name = "createDirectory" then
    createDirectory fs (getArg args "directory_path")
  else if name = "runTerminalCommand" then
    (fs, match getArg args "command" with
         | some c => execCmd c
         | none => ToolResult.err "invalid arguments")
  else (fs, ToolResult.err "tool not found")

theorem toolFunctionsMap_deleteFile (execCmd : String → ToolResult)
    (args : List (String × String)) (fs : FS) :
    toolFunctionsMap execCmd "deleteFile" args fs
      = deleteFile fs (getArg args "file_path") := rfl

/-- One iteration of the tool-call loop in CodeReviewerAgent.run: a
    destructive tool call in dry-run mode is blocked — the call and a
    synthetic error result are appended and the tool is not invoked;
    otherwise the tool executes and its wrapped result is appended. -/
def reviewDispatchCall (execCmd : String → ToolResult) (mode : String)
    (fs : FS) (history : List Message) (fc : FunctionCall) : FS × List Message :=
  let isDestructive := ["writeFile", "deleteFile"].contains fc.name
  if isDestructive && mode == "dry-run" then
    (fs, history
      ++ [⟨Role.model, [MsgPart.functionCall fc]⟩,
          ⟨Role.user, [MsgPart.functionResponse fc.name
            (Payload.error "Action blocked: User confirmation required.")]⟩])
  else
    let fsr := toolFunctionsMap execCmd fc.name fc.args fs
    (fsr.1, history
      ++ [⟨Role.model, [MsgPart.functionCall fc]⟩,
          ⟨Role.user, [MsgPart.functionResponse fc.name
            (Payload.result fsr.2)]⟩])

/-- The full tool-call loop of CodeReviewerAgent.run over the calls of one
    provider response, in order. -/
def reviewDispatchCalls (execCmd : String → ToolResult) (mode : String) :
    FS → List Message → List FunctionCall → FS × List Message
  | fs, history, [] => (fs, history)
  | fs, history, fc :: rest =>
    let fh := reviewDispatchCall execCmd mode fs history fc
    reviewDispatchCalls execCmd mode fh.1 fh.2 rest

/-- Trivial external-shell capability used in concrete witnesses. -/
def trivialExec : String → ToolResult := fun _ => ToolResult.ok

/-- Claim C4: a tool call naming a destructive tool (writeFile or deleteFile)
    in dry-run mode leaves the file system unchanged, the tool implementation
    is not invoked, and an error-shaped tool result containing the
    confirmation-required phrase is appended; in apply-fix mode the gate is
    bypassed and the underlying tool executes — in particular deleteFile on an
    existing file really removes it. -/
theorem dryRun_gate (execCmd : String → ToolResult) (fs : FS)
    (history : List Message) (fc : FunctionCall)
    (hdest : ["writeFile", "deleteFile"].contains fc.name = true) :
    (reviewDispatchCall execCmd "dry-run" fs history fc).1 = fs
    ∧ (reviewDispatchCall execCmd "dry-run" fs history fc).2
        = history
          ++ [⟨Role.model, [MsgPart.functionCall fc]⟩,
              ⟨Role.user, [MsgPart.functionResponse fc.name
                (Payload.error "Action blocked: User confirmation required.")]⟩]
    ∧ strContains "Action blocked: User confirmation required."
        "confirmation required" = true
    ∧ (reviewDispatchCall execCmd "apply-fix" fs history fc).1
        = (toolFunctionsMap execCmd fc.name fc.args fs).1
    ∧ (∀ p, fc.name = "deleteFile" → fc.args = [("file_path", p)] →
        (fsLookup fs p).isSome = true →
        fsLookup (reviewDispatchCall execCmd "apply-fix" fs history fc).1 p = none) := by
  have hor : fc.name = "writeFile" ∨ fc.name = "deleteFile" := by
    simpa using hdest
  have hb2 : (("apply-fix" : String) == "dry-run") = false := by decide
  refine ⟨?_, ?_, by decide, ?_, ?_⟩
  · simp [reviewDispatchCall]
    rw [if_pos hor]
  · simp [reviewDispatchCall]
    rw [if_pos hor]
  · simp [reviewDispatchCall, hb2]
  · intro p hn ha hs
    have hfs : (reviewDispatchCall execCmd "apply-fix" fs history fc).1
        = (toolFunctionsMap execCmd fc.name fc.args fs).1 := by
      simp [reviewDispatchCall, hb2]
    rw [hfs, hn, ha, toolFunctionsMap_deleteFile]
    have harg : getArg [("file_path", p)] "file_path" = some p := rfl
    rw [harg]
    simp [deleteFile, hs, fsLookup_fsErase]

/-- Witness for the dry-run gate at a concrete destructive call: the file
    system is untouched in dry-run mode. -/
theorem dryRun_gate_witness :
    (reviewDispatchCall trivialExec "dry-run" [("a.txt", "x")] []
      ⟨"deleteFile", [("file_path", "a.txt")]⟩).1 = [("a.txt", "x")] :=
  (dryRun_gate trivialExec [("a.txt", "x")] []
    ⟨"deleteFile", [("file_path", "a.txt")]⟩ (by decide)).1

/-- Claim C9: deleteFile removes the file and returns a success result when
    the file exists; when the file is absent it returns success false with
    error File not found and leaves the file system unchanged.  The embedding
    is a total function into structured results — nothing is thrown across
    the tool boundary. -/
theorem deleteFile_spec (fs : FS) (p : String) :
    ((fsLookup fs p).isSome = true →
      deleteFile fs (some p) = (fsErase fs p, ToolResult.ok)
        ∧ fsLookup (deleteFile fs (some p)).1 p = none)
    ∧ ((fsLookup fs p).isNone = true →
      deleteFile fs (some p) = (fs, ToolResult.err "File not found")) := by
  refine ⟨fun h => ?_, fun h => ?_⟩
  · have he : deleteFile fs (some p) = (fsErase fs p, ToolResult.ok) := by
      simp [deleteFile, h]
    exact ⟨he, by rw [he]; exact fsLookup_fsErase fs p⟩
  · simp [deleteFile, Option.isNone_iff_eq_none.mp h]

/-- Witness for deleteFile at concrete file systems: both the present and the
    absent case. -/
theorem deleteFile_spec_witness :
    deleteFile [("a.txt", "hi")] (some "a.txt") = ([], ToolResult.ok)
      ∧ deleteFile [] (some "a.txt") = ([], ToolResult.err "File not found") := by
  constructor
  · exact ((deleteFile_spec [("a.txt", "hi")] "a.txt").1 (by decide)).1.trans (by decide)
  · exact (deleteFile_spec [] "a.txt").2 (by decide)

/-- Whitespace recognised by JavaScript String.prototype.trim (the common
    cases). -/
def isJsWhitespace (c : Char) : Bool :=
  c = ' ' ∨ c = '\t' ∨ c = '\n' ∨ c = '\r'

/-- JavaScript String.prototype.trim: strip leading and trailing
    whitespace. -/
def jsTrim (s : String) : String :=
  String.mk (((s.toList.dropWhile isJsWhitespace).reverse.dropWhile
    isJsWhitespace).reverse)

/-- The reseed turn of runWithMessage: the user message joined with its
    working directory. -/
def seedMessage (userMessage directoryPath : String) : Message :=
  ⟨Role.user, [MsgPart.text (userMessage ++ ". Working directory: " ++ directoryPath)]⟩

/-- A text part that is truthy in JavaScript (nonempty text). -/
def MsgPart.hasTruthyText : MsgPart → Bool
  | .text s => s != ""
  | _ => false

/-- Turn budget of runWithMessage. -/
def MAX_TURNS : Nat := 15

/-- Retry budget for conversation-state errors in runWithMessage. -/
def MAX_RETRIES : Nat := 2

/-- History length bound of both loops. -/
def MAX_HISTORY_LENGTH : Nat := 20

/-- The trimHistory closure of runWithMessage: when the history exceeds 20
    turns, keep the first user turn containing a (truthy) text part together
    with the most recent 19 turns, then re-sanitize. -/
def trimHistory (history : List Message) : List Message :=
  if history.length > MAX_HISTORY_LENGTH then
    let firstUserMsg := history.find? fun m =>
      m.role == Role.user && m.parts.any MsgPart.hasTruthyText
    let recent := history.drop (history.length - (MAX_HISTORY_LENGTH - 1))
    let trimmed :=
      match firstUserMsg with
      | some m => m :: recent
      | none => recent
    validateAndSanitizeHistory trimmed
  else history

/-- An error raised by the provider call, as seen by the catch block:
    message text and error name. -/
structure ApiError where
  message : String
  name : String
deriving DecidableEq, Repr

/-- Conversation-state-class error detection by message sniffing, as in the
    catch blocks of run and runWithMessage. -/
def isStateError (e : ApiError) : Bool :=
  strContains e.message "function call turn" || strContains e.message "INVALID_ARGUMENT"

/-- Transport-class error detection by message sniffing and error name. -/
def isNetworkError (e : ApiError) : Bool :=
  strContains e.message "fetch failed" || e.name == "TypeError"

/-- Normalized provider response: tool calls plus text. -/
structure ProviderResponse where
  functionCalls : List FunctionCall
  text : String
deriving DecidableEq, Repr

/-- Outcome of one generateContent call: a response, or a raised error. -/
inductive ProviderOutcome
  | ok (r : ProviderResponse)
  | raised (e : ApiError)
deriving DecidableEq, Repr

/-- Execution of one tool call in runWithMessage: the host-supplied tool
    function either returns a result or throws (the Except.error case), and a
    thrown exception is caught and converted into an error-shaped response
    part rather than aborting the turn. -/
def execCall (toolFns : String → List (String × String) → Except String ToolResult)
    (fc : FunctionCall) : MsgPart :=
  match toolFns fc.name fc.args with
  | .ok r => MsgPart.functionResponse fc.name (Payload.result r)
  | .error e => MsgPart.functionResponse fc.name (Payload.error e)

/-- The response-collection loop of runWithMessage over all calls, in order. -/
def collectResponses (toolFns : String → List (String × String) → Except String ToolResult) :
    List FunctionCall → List MsgPart
  | [] => []
  | fc :: rest => execCall toolFns fc :: collectResponses toolFns rest

/-- The tool-dispatch block of runWithMessage: append one model turn holding
    all returned tool calls and one user turn holding all collected
    responses. -/
def dispatchToolCalls
    (toolFns : String → List (String × String) → Except String ToolResult)
    (calls : List FunctionCall) (history : List Message) : List Message :=
  history
    ++ [⟨Role.model, calls.map MsgPart.functionCall⟩,
        ⟨Role.user, collectResponses toolFns calls⟩]

/-- The sanitize-then-reseed step at the top of each runWithMessage
    iteration: if sanitization empties the history, the user message is added
    back. -/
def sanitizedOrSeed (seed : Message) (history : List Message) : List Message :=
  let h0 := validateAndSanitizeHistory history
  if h0.isEmpty then [seed] else h0

/-- Mutable state of the runWithMessage loop. -/
structure LoopState where
  history : List Message
  retryCount : Nat
deriving DecidableEq, Repr

/-- Result of one loop iteration: continue, break with an optional emitted
    text, or throw. -/
inductive StepResult
  | next (st : LoopState)
  | finished (st : LoopState) (emitted : Option String)
  | fatal (msg : String)
deriving DecidableEq, Repr

/-- One iteration of the while loop in runWithMessage, given the provider
    outcome of this turn's generateContent call. -/
def stepIteration
    (toolFns : String → List (String × String) → Except String ToolResult)
    (seed : Message) (outcome : ProviderOutcome) (st : LoopState) : StepResult :=
  let hist := sanitizedOrSeed seed st.history
  match outcome with
  | .raised e =>
    if isStateError e then
      if st.retryCount < MAX_RETRIES then StepResult.next ⟨[seed], st.retryCount + 1⟩
      else
        StepResult.fatal
          "Conversation state could not be recovered. Please start a new conversation."
    else if isNetworkError e then
      StepResult.fatal
        "Network connection failed. Please check your internet connection and try again."
    else StepResult.fatal e.message
  | .ok r =>
    if !r.functionCalls.isEmpty then
      StepResult.next ⟨trimHistory (dispatchToolCalls toolFns r.functionCalls hist), 0⟩
    else
      let text := jsTrim r.text
      if text == "" then StepResult.finished ⟨hist, 0⟩ none
      else
        StepResult.finished ⟨hist ++ [⟨Role.model, [MsgPart.text text]⟩], 0⟩ (some text)

/-- Retry counter carried by a step result, when the loop proceeds. -/
def stepRetryCount : StepResult → Option Nat
  | .next st => some st.retryCount
  | .finished st _ => some st.retryCount
  | .fatal _ => none

/-- Result of a whole runWithMessage submission. -/
inductive RunResult
  | finished (st : LoopState) (emitted : List String)
  | fatal (msg : String)
  | starved
deriving DecidableEq, Repr

/-- Emitted messages of a normally finished run. -/
def runEmitted : RunResult → Option (List String)
  | .finished _ e => some e
  | _ => none

/-- The while loop of runWithMessage: fuel counts the remaining turns out of
    MAX_TURNS, the script supplies one provider outcome per generateContent
    call, and the second component counts provider calls actually made.
    starved marks script exhaustion, a modelling artefact only. -/
def runLoop (toolFns : String → List (String × String) → Except String ToolResult)
    (seed : Message) :
    Nat → List ProviderOutcome → LoopState → RunResult × Nat
  | 0, _, st => (RunResult.finished st [], 0)
  | _ + 1, [], _ => (RunResult.starved, 0)
  | fuel + 1, o :: rest, st =>
    match stepIteration toolFns seed o st with
    | .next st' =>
      let rn := runLoop toolFns seed fuel rest st'
      (rn.1, rn.2 + 1)
    | .finished st' e => (RunResult.finished st' e.toList, 1)
    | .fatal m => (RunResult.fatal m, 1)

/-- MultiProviderAgent.runWithMessage for one submission: sanitize the stored
    history, append the user message with its working directory, then run up
    to MAX_TURNS loop iterations against the provider script. -/
def runWithMessage
    (toolFns : String → List (String × String) → Except String ToolResult)
    (userMessage directoryPath : String)
    (storedHistory : List Message) (script : List ProviderOutcome) :
    RunResult × Nat :=
  let seed := seedMessage userMessage directoryPath
  runLoop toolFns seed MAX_TURNS script
    ⟨validateAndSanitizeHistory storedHistory ++ [seed], 0⟩

/-- Host tool functions that always throw, used to exercise the
    error-conversion path in concrete witnesses. -/
def failTools : String → List (String × String) → Except String ToolResult :=
  fun _ _ => Except.error "boom"

/-- A provider outcome that returns at least one tool call. -/
def isDispatchOutcome : ProviderOutcome → Bool
  | .ok r => !r.functionCalls.isEmpty
  | .raised _ => false

theorem collectResponses_length
    (toolFns : String → List (String × String) → Except String ToolResult) :
    ∀ calls : List FunctionCall,
      (collectResponses toolFns calls).length = calls.length
  | [] => rfl
  | fc :: rest => by
    simp [collectResponses, collectResponses_length toolFns rest]

theorem collectResponses_get
    (toolFns : String → List (String × String) → Except String ToolResult) :
    ∀ (calls : List FunctionCall) (i : Nat) (hi : i < calls.length),
      (collectResponses toolFns calls)[i]? = some (execCall toolFns calls[i])
  | [], i, hi => by simp at hi
  | fc :: rest, 0, _ => by
    simp [collectResponses]
  | fc :: rest, i + 1, hi => by
    simp only [collectResponses, List.getElem?_cons_succ, List.getElem_cons_succ]
    exact collectResponses_get toolFns rest i (by simpa using hi)

/-- Claim C1: for a provider response containing N tool calls (N at least 1),
    one dispatch cycle appends exactly one model turn whose parts are the N
    call descriptors and exactly one immediately following user turn with N
    result parts, correlated 1:1 by position in the same order as the calls;
    a tool function that throws is converted into an error-shaped result part
    rather than aborting the turn. -/
theorem batch_dispatch
    (toolFns : String → List (String × String) → Except String ToolResult)
    (calls : List FunctionCall) (history : List Message)
    (_hne : calls ≠ []) :
    (dispatchToolCalls toolFns calls history).length = history.length + 2
    ∧ (dispatchToolCalls toolFns calls history).take history.length = history
    ∧ (dispatchToolCalls toolFns calls history)[history.length]?
        = some ⟨Role.model, calls.map MsgPart.functionCall⟩
    ∧ (dispatchToolCalls toolFns calls history)[history.length + 1]?
        = some ⟨Role.user, collectResponses toolFns calls⟩
    ∧ (calls.map MsgPart.functionCall).length = calls.length
    ∧ (collectResponses toolFns calls).length = calls.length
    ∧ (∀ i, (hi : i < calls.length) →
        (calls.map MsgPart.functionCall)[i]? = some (MsgPart.functionCall calls[i])
          ∧ (collectResponses toolFns calls)[i]? = some (execCall toolFns calls[i]))
    ∧ (∀ fc, ∃ payload, execCall toolFns fc = MsgPart.functionResponse fc.name payload)
    ∧ (∀ fc e, toolFns fc.name fc.args = Except.error e →
        execCall toolFns fc = MsgPart.functionResponse fc.name (Payload.error e)) := by
  refine ⟨?_, ?_, ?_, ?_, ?_, collectResponses_length toolFns calls, ?_, ?_, ?_⟩
  · simp [dispatchToolCalls]
  · simp [dispatchToolCalls]
  · simp only [dispatchToolCalls]
    rw [List.getElem?_append_right (Nat.le_refl _)]
    simp
  · simp only [dispatchToolCalls]
    rw [List.getElem?_append_right (Nat.le_succ_of_le (Nat.le_refl _))]
    simp
  · simp
  · intro i hi
    constructor
    · rw [List.getElem?_map, List.getElem?_eq_getElem hi]
      rfl
    · exact collectResponses_get toolFns calls i hi
  · intro fc
    cases hr : toolFns fc.name fc.args with
    | ok r => exact ⟨Payload.result r, by simp [execCall, hr]⟩
    | error e => exact ⟨Payload.error e, by simp [execCall, hr]⟩
  · intro fc e he
    simp [execCall, he]

/-- Witness for the batch-dispatch theorem at a concrete single-call cycle
    with a throwing tool function. -/
theorem batch_dispatch_witness :
    (dispatchToolCalls failTools [⟨"readFile", [("file_path", "a.js")]⟩] []).length
      = 0 + 2 :=
  (batch_dispatch failTools [⟨"readFile", [("file_path", "a.js")]⟩] [] (by decide)).1

theorem runLoop_count_le
    (toolFns : String → List (String × String) → Except String ToolResult)
    (seed : Message) :
    ∀ (fuel : Nat) (script : List ProviderOutcome) (st : LoopState),
      (runLoop toolFns seed fuel script st).2 ≤ fuel
  | 0, _, _ => Nat.le_refl 0
  | _ + 1, [], _ => Nat.zero_le _
  | fuel + 1, o :: rest, st => by
    cases hstep : stepIteration toolFns seed o st with
    | next st' =>
      have ih := runLoop_count_le toolFns seed fuel rest st'
      simp only [runLoop, hstep]
      exact Nat.succ_le_succ ih
    | finished st' e =>
      simp only [runLoop, hstep]
      exact Nat.succ_le_succ (Nat.zero_le _)
    | fatal m =>
      simp only [runLoop, hstep]
      exact Nat.succ_le_succ (Nat.zero_le _)

theorem stepIteration_dispatch
    (toolFns : String → List (String × String) → Except String ToolResult)
    (seed : Message) (st : LoopState) (r : ProviderResponse)
    (h : r.functionCalls.isEmpty = false) :
    stepIteration toolFns seed (.ok r) st
      = StepResult.next
          ⟨trimHistory (dispatchToolCalls toolFns r.functionCalls
            (sanitizedOrSeed seed st.history)), 0⟩ := by
  simp [stepIteration, h]

theorem runLoop_dispatch_finishes
    (toolFns : String → List (String × String) → Except String ToolResult)
    (seed : Message) :
    ∀ (fuel : Nat) (script : List ProviderOutcome) (st : LoopState),
      (∀ o ∈ script, isDispatchOutcome o = true) → fuel ≤ script.length →
      ∃ st', (runLoop toolFns seed fuel script st).1 = RunResult.finished st' []
  | 0, _, st, _, _ => ⟨st, rfl⟩
  | fuel + 1, [], st, _, hlen => by simp at hlen
  | fuel + 1, o :: rest, st, hall, hlen => by
    have ho := hall o (List.mem_cons_self o rest)
    cases o with
    | raised e => simp [isDispatchOutcome] at ho
    | ok r =>
      have ho' : r.functionCalls.isEmpty = false := by
        simpa [isDispatchOutcome] using ho
      have hd := stepIteration_dispatch toolFns seed st r ho'
      obtain ⟨st2, h2⟩ := runLoop_dispatch_finishes toolFns seed fuel rest
        ⟨trimHistory (dispatchToolCalls toolFns r.functionCalls
          (sanitizedOrSeed seed st.history)), 0⟩
        (fun x hx => hall x (List.mem_cons_of_mem _ hx))
        (Nat.le_of_succ_le_succ hlen)
      refine ⟨st2, ?_⟩
      simp only [runLoop, hd]
      exact h2

/-- Claim C5: each submission makes at most MAX_TURNS (15) provider calls;
    when the provider keeps returning tool calls and never produces a
    terminal text, the loop still terminates normally after 15 cycles with a
    finished result and no uncaught error. -/
theorem turn_budget
    (toolFns : String → List (String × String) → Except String ToolResult)
    (userMessage directoryPath : String)
    (storedHistory : List Message) (script : List ProviderOutcome) :
    (runWithMessage toolFns userMessage directoryPath storedHistory script).2 ≤ MAX_TURNS
    ∧ ((∀ o ∈ script, isDispatchOutcome o = true) → MAX_TURNS ≤ script.length →
        ∃ st, (runWithMessage toolFns userMessage directoryPath storedHistory script).1
          = RunResult.finished st []) := by
  constructor
  · exact runLoop_count_le toolFns (seedMessage userMessage directoryPath)
      MAX_TURNS script _
  · intro hall hlen
    exact runLoop_dispatch_finishes toolFns (seedMessage userMessage directoryPath)
      MAX_TURNS script _ hall hlen

/-- A script of fifteen pure tool-call responses. -/
def dispatchScript : List ProviderOutcome :=
  List.replicate 15 (ProviderOutcome.ok ⟨[⟨"readFile", [("file_path", "a.js")]⟩], ""⟩)

/-- Witness for the turn-budget theorem on a concrete endless tool-call
    script. -/
theorem turn_budget_witness :
    (runWithMessage failTools "review" "proj" [] dispatchScript).2 ≤ MAX_TURNS
    ∧ ∃ st, (runWithMessage failTools "review" "proj" [] dispatchScript).1
        = RunResult.finished st [] := by
  have h := turn_budget failTools "review" "proj" [] dispatchScript
  exact ⟨h.1, h.2 (by decide) (by decide)⟩

/-- A conversation-state-class provider error. -/
def stateErr : ApiError := ⟨"400 INVALID_ARGUMENT: bad function call turn", "Error"⟩

/-- Claim C6: a conversation-state-class provider error resets the history to
    just the reseed turn and retries while the retry budget (MAX_RETRIES = 2)
    remains; once the budget is exhausted the next such error becomes a fatal
    error stating the conversation state could not be recovered, and a run
    hitting three consecutive state errors ends fatally after exactly those
    attempts. -/
theorem stateError_bounded_retry
    (toolFns : String → List (String × String) → Except String ToolResult)
    (seed : Message) (st : LoopState) (e : ApiError)
    (hs : isStateError e = true) :
    (st.retryCount < MAX_RETRIES →
      stepIteration toolFns seed (.raised e) st
        = StepResult.next ⟨[seed], st.retryCount + 1⟩)
    ∧ (MAX_RETRIES ≤ st.retryCount →
      stepIteration toolFns seed (.raised e) st
        = StepResult.fatal
            "Conversation state could not be recovered. Please start a new conversation.")
    ∧ strContains
        "Conversation state could not be recovered. Please start a new conversation."
        "could not be recovered" = true
    ∧ (runWithMessage failTools "msg" "dir" []
        [.raised stateErr, .raised stateErr, .raised stateErr]).1
        = RunResult.fatal
            "Conversation state could not be recovered. Please start a new conversation." := by
  refine ⟨fun hlt => ?_, fun hge => ?_, by decide, by decide⟩
  · simp [stepIteration, hs, hlt]
  · have hnlt : ¬ st.retryCount < MAX_RETRIES := Nat.not_lt.mpr hge
    simp [stepIteration, hs, hnlt]

/-- Witness for the bounded-retry theorem at an exhausted retry budget. -/
theorem stateError_bounded_retry_witness :
    stepIteration failTools (seedMessage "m" "d") (.raised stateErr) ⟨[], 2⟩
      = StepResult.fatal
          "Conversation state could not be recovered. Please start a new conversation." :=
  (stateError_bounded_retry failTools (seedMessage "m" "d") ⟨[], 2⟩ stateErr
    (by decide)).2.1 (by decide)

/-- A script interleaving four state errors with successful responses: each
    pair of consecutive errors is followed by a success, so no run of
    consecutive state errors exceeds the retry budget. -/
def interleavedScript : List ProviderOutcome :=
  [.raised stateErr, .raised stateErr,
   .ok ⟨[⟨"readFile", [("file_path", "a.js")]⟩], ""⟩,
   .raised stateErr, .raised stateErr,
   .ok ⟨[], "done"⟩]

/-- Claim C10: every successful provider response resets the retry counter to
    zero — in both the tool-dispatch and the text branch — so the bound of
    two retries applies only to consecutive state-class failures; a run with
    four state errors separated by a successful response still finishes
    normally and emits its final text. -/
theorem retryCount_reset_on_success
    (toolFns : String → List (String × String) → Except String ToolResult)
    (seed : Message) (st : LoopState) (r : ProviderResponse) :
    stepRetryCount (stepIteration toolFns seed (.ok r) st) = some 0
    ∧ runEmitted (runWithMessage failTools "msg" "dir" [] interleavedScript).1
        = some ["done"] := by
  constructor
  · by_cases h : r.functionCalls.isEmpty = true
    · by_cases ht : (jsTrim r.text == "") = true
      · simp [stepIteration, stepRetryCount, h, ht]
      · simp [stepIteration, stepRetryCount, h, ht]
    · replace h : r.functionCalls.isEmpty = false := by simpa using h
      simp [stepIteration, stepRetryCount, h]
  · decide
